import Mathlib

/-!
A shallow embedding of the storage core of the `scratch` repository
(package `db`, file `pkg/db/db.go`, types from `pkg/db/types.go`).

The SQLite database is modelled as lists of rows, one list per table.
Timestamps are natural numbers.  The serialized JSON history column is
modelled as the deserialized value itself (serialization is treated as a
bijection).  Engine-level failures of individual statements are modelled
by explicit failure oracles where a claim depends on them.
-/

deriving instance DecidableEq for Except

namespace Scratch

/-- Claim-support: the version history of one file.
Modelled from the spec: the `VersionedText` type lives in the external
package `github.com/schollz/versionedtext`, which is not part of this
repository.  Per the spec it holds the current text plus an ordered
sequence sufficient to reconstruct every prior version; appending a new
version never discards prior entries.  We model the ordered sequence as
the list of successive text snapshots. -/
structure VersionedText where
  currentText : String
  snapshots : List String
deriving Repr, DecidableEq

/-- Modelled from the spec: `versionedtext.NewVersionedText(data)` starts a
history whose single version is `data`. -/
def VersionedText.new (d : String) : VersionedText :=
  ⟨d, [d]⟩

/-- Modelled from the spec: `(*VersionedText).Update(data)` appends `data`
as a new version; prior entries are kept. -/
def VersionedText.update (v : VersionedText) (d : String) : VersionedText :=
  ⟨d, v.snapshots ++ [d]⟩

/-- The Go zero value of `versionedtext.VersionedText`, as produced for a
`File` struct that was never assigned a history. -/
def VersionedText.zero : VersionedText :=
  ⟨"", []⟩

/-- One row of the `fs` table (`id` is the primary key; `history` is the
JSON column, modelled by its deserialized value; `views` defaults to 0). -/
structure FsRow where
  id : String
  domainid : Nat
  slug : String
  created : Nat
  modified : Nat
  history : VersionedText
  views : Nat
deriving Repr, DecidableEq

/-- One row of the `fts` FTS5 virtual table over `(id, data)`. -/
structure FtsRow where
  id : String
  data : String
deriving Repr, DecidableEq

/-- One row of the `domains` table.  `options` is the serialized
`DomainOptions` blob, modelled as an opaque string (empty = unset). -/
structure DomainRow where
  id : Nat
  name : String
  hashedPass : String
  ispublic : Nat
  options : String
deriving Repr, DecidableEq

/-- One row of the `keys` table. -/
structure KeyRow where
  id : Nat
  domainid : Nat
  key : String
  lastused : Nat
deriving Repr, DecidableEq

/-- One row of the `blobs` table or of the `cached_images` table (both
have the schema `(id, name, data, views)`). -/
structure BlobRow where
  id : String
  name : String
  data : String
  views : Nat
deriving Repr, DecidableEq

/-- The whole database state: one list of rows per table. -/
structure DB where
  fs : List FsRow
  fts : List FtsRow
  domains : List DomainRow
  keys : List KeyRow
  blobs : List BlobRow
  cachedImages : List BlobRow
deriving Repr, DecidableEq

/-- The error outcomes of the storage operations, one constructor per
distinct `errors.New` message / engine condition reached by the modelled
code paths. -/
inductive Err where
  /-- "no files with that slug or id" (returned by `get`). -/
  | noFiles : Err
  /-- "domain does not exist" (returned by `Save`). -/
  | domainNotExist : Err
  /-- "domain already exists" (returned by `SetDomain`). -/
  | domainExists : Err
  /-- `sql.ErrNoRows` from a `QueryRow(...).Scan` on an empty result. -/
  | noRows : Err
  /-- an engine-level failure of a statement execution. -/
  | execFailed : Err
deriving Repr, DecidableEq

/-- The in-memory `File` struct (`pkg/db/types.go`).  The Go zero values
of the fields are `""`, `0` and `VersionedText.zero`.  The `DataHTML`
field always mirrors `Data` and is omitted. -/
structure File where
  id : String
  slug : String
  created : Nat
  modified : Nat
  data : String
  domain : String
  history : VersionedText
  views : Nat
deriving Repr, DecidableEq

/-- How `getAllFromPreparedQuery` scans one joined row into a `File`:
the seven selected columns are `fs.id, fs.slug, fs.created, fs.modified,
<text column>, fs.history, fs.views`.  The `Domain` field is never
scanned and keeps its zero value `""`. -/
def rowToFile (r : FsRow) (text : String) : File :=
  { id := r.id, slug := r.slug, created := r.created, modified := r.modified,
    data := text, domain := "", history := r.history, views := r.views }

/-- Insertion step of the model of SQL `ORDER BY <key> DESC`. -/
def insertByDesc (key : α → Nat) (x : α) : List α → List α
  | [] => [x]
  | y :: ys => if key y ≤ key x then x :: y :: ys else y :: insertByDesc key x ys

/-- Model of SQL `ORDER BY <key> DESC` (a stable insertion sort). -/
def sortByDesc (key : α → Nat) : List α → List α
  | [] => []
  | x :: xs => insertByDesc key x (sortByDesc key xs)

/-- `getDomainFromName` (the private, lower-case one): runs
`SELECT id,hashed_pass,ispublic,options FROM domains WHERE name = ?`
and scans each row into the same variables, so the last matching row
wins; with no match every output keeps its zero value.  Note that this
function does NOT lower-case its argument and SQLite compares TEXT
case-sensitively. -/
def getDomainFromName (db : DB) (name : String) : Nat × String × Nat × String :=
  match (db.domains.filter (fun d => d.name == name)).getLast? with
  | none => (0, "", 0, "")
  | some d => (d.id, d.hashedPass, d.ispublic, d.options)

/-- SQLite assigns a fresh `INTEGER PRIMARY KEY` as one more than the
largest id in use (and never 0, so 0 stays a valid "absent" sentinel). -/
def nextDomainId (db : DB) : Nat :=
  (db.domains.foldr (fun d m => max d.id m) 0) + 1

/-- ASCII lower-casing of one character (`strings.ToLower` on the ASCII
domain names this code handles). -/
def lowerChar (c : Char) : Char :=
  if 'A' ≤ c ∧ c ≤ 'Z' then Char.ofNat (c.toNat + 32) else c

/-- `strings.ToLower` on a whole string. -/
def lowerStr (s : String) : String :=
  String.mk (s.data.map lowerChar)

/-- `setDomain` (private): lower-cases the name, hashes the password and
runs `INSERT INTO domains (name, hashed_pass, ispublic) VALUES (?,?,0)`.
The bcrypt hash (external package `golang.org/x/crypto/bcrypt`) is kept
abstract as the parameter `hash`. -/
def setDomain (hash : String → String) (db : DB) (domain password : String) : DB :=
  { db with domains :=
      db.domains ++ [⟨nextDomainId db, lowerStr domain, hash password, 0, ""⟩] }

/-- `SetDomain`: checks `getDomainFromName(domain)` — on the RAW,
non-lower-cased argument — and errors with "domain already exists" when
the returned id is non-zero; otherwise inserts via `setDomain`. -/
def SetDomain (hash : String → String) (db : DB) (domain password : String) :
    Except Err DB :=
  if (getDomainFromName db domain).1 ≠ 0 then .error Err.domainExists
  else .ok (setDomain hash db domain password)

/-- `isID`: whether some row of `fs` has the given id
(`SELECT id FROM fs WHERE id = ?` returns at least one row). -/
def isID (db : DB) (id : String) : Bool :=
  db.fs.any (fun r => r.id == id)

/-- `idExists`: whether some row of `fts` has the given id
(`SELECT id FROM fts WHERE id = ?` returns at least one row). -/
def idExists (db : DB) (id : String) : Bool :=
  db.fts.any (fun t => t.id == id)

/-- The three-table join shared by `GetAll`, `GetTopX`,
`GetTopXMostViews` and the slug branch of `get`:
`FROM fs INNER JOIN fts ON fs.id=fts.id INNER JOIN domains ON
fs.domainid=domains.id WHERE domains.name = ?`. -/
def joinRows (fsRows : List FsRow) (ftsRows : List FtsRow)
    (domRows : List DomainRow) (domain : String) : List File :=
  fsRows.flatMap (fun r =>
    (ftsRows.filter (fun t => t.id == r.id)).flatMap (fun t =>
      (domRows.filter (fun d => r.domainid == d.id && d.name == domain)).map
        (fun _ => rowToFile r t.data)))

/-- The id branch of `get`: `SELECT ... FROM fs INNER JOIN fts ON
fs.id=fts.id WHERE fs.id = ? LIMIT 1` — no domain table in sight. -/
def getById (db : DB) (id : String) : List File :=
  ((db.fs.filter (fun r => r.id == id)).flatMap (fun r =>
    (db.fts.filter (fun t => t.id == r.id)).map
      (fun t => rowToFile r t.data))).take 1

/-- The slug branch of `get`: the three-table join restricted to
`fs.id IN (SELECT id FROM fs WHERE slug=?)` (equivalent to `fs.slug = ?`
since `id` is the primary key) and `domains.name = ?`, ordered by
`modified DESC`. -/
def getBySlug (db : DB) (slug domain : String) : List File :=
  sortByDesc (fun g => g.modified)
    (joinRows (db.fs.filter (fun r => r.slug == slug)) db.fts db.domains domain)

/-- `get` (private; `Get` only wraps it in the lock): id branch when
`isID`, slug branch otherwise; "no files with that slug or id" when the
chosen branch yields zero rows. -/
def get (db : DB) (id domain : String) : Except Err (List File) :=
  if isID db id then
    if (getById db id).length > 0 then .ok (getById db id)
    else .error Err.noFiles
  else
    if (getBySlug db id domain).length > 0 then .ok (getBySlug db id domain)
    else .error Err.noFiles

/-- `GetAll`: the three-table join filtered by `LENGTH(fts.data) > 0`,
ordered by `created DESC` or `modified DESC` per the flag, and with the
`Domain` field of every result set to the queried domain afterwards. -/
def GetAll (db : DB) (domain : String) (byCreated : Bool) : List File :=
  let rows := (joinRows db.fs db.fts db.domains domain).filter
    (fun g => decide (0 < g.data.length))
  let sorted := if byCreated then sortByDesc (fun g => g.created) rows
    else sortByDesc (fun g => g.modified) rows
  sorted.map (fun g => { g with domain := domain })

/-- `GetTopX`: same query as `GetAll` with `LIMIT ?`; the `Domain`
field is NOT set on the results. -/
def GetTopX (db : DB) (domain : String) (num : Nat) (byCreated : Bool) : List File :=
  let rows := (joinRows db.fs db.fts db.domains domain).filter
    (fun g => decide (0 < g.data.length))
  let sorted := if byCreated then sortByDesc (fun g => g.created) rows
    else sortByDesc (fun g => g.modified) rows
  sorted.take num

/-- `GetTopXMostViews`: same filter, ordered by `views DESC`, `LIMIT ?`. -/
def GetTopXMostViews (db : DB) (domain : String) (num : Nat) : List File :=
  (sortByDesc (fun g => g.views)
    ((joinRows db.fs db.fts db.domains domain).filter
      (fun g => decide (0 < g.data.length)))).take num

/-- The rows produced by `Find`'s query before ordering:
`FROM fts INNER JOIN fs ON fs.id=fts.id INNER JOIN domains ON
fs.domainid=domains.id WHERE fts.data MATCH ? AND domains.name = ?`,
selecting `snippet(fts, 1, <b>, </b>, ..., 30)` as the text column.
The FTS5 engine is external, so the match predicate `m` and the
snippet renderer `snip` are kept abstract as parameters. -/
def findRows (m : String → String → Bool) (snip : String → String → String)
    (db : DB) (text domain : String) : List File :=
  (db.fts.filter (fun t => m text t.data)).flatMap (fun t =>
    (db.fs.filter (fun r => r.id == t.id)).flatMap (fun r =>
      (db.domains.filter (fun d => r.domainid == d.id && d.name == domain)).map
        (fun _ => rowToFile r (snip text t.data))))

/-- `Find`: the match query ordered by `modified DESC`. -/
def Find (m : String → String → Bool) (snip : String → String → String)
    (db : DB) (text domain : String) : List File :=
  sortByDesc (fun g => g.modified) (findRows m snip db text domain)

/-- The domain name `Save` actually resolves: the file's own domain, or
"public" when that is unset. -/
def File.resolveDomain (f : File) : String :=
  if f.domain = "" then "public" else f.domain

/-- The rows `Save` loads before writing: `fs.get(f.ID, f.Domain)` with
the error discarded (`files, _ := fs.get(...)`), so an error leaves the
empty list. -/
def storedFiles (db : DB) (f : File) : List File :=
  match get db f.id f.domain with
  | .ok l => l
  | .error _ => []

/-- The history `Save` writes: when the reload found exactly one row,
the incoming data is replayed against THAT row's history; otherwise a
fresh history is started from the incoming data. -/
def mergedHistory (db : DB) (f : File) : VersionedText :=
  match storedFiles db f with
  | [g] => g.history.update f.data
  | _ => VersionedText.new f.data

/-- `INSERT OR IGNORE INTO fs (...)`: a no-op when a row with the same
primary key `id` already exists, an append otherwise. -/
def insertOrIgnoreFs (rows : List FsRow) (r : FsRow) : List FsRow :=
  if rows.any (fun x => x.id == r.id) then rows else rows ++ [r]

/-- `UPDATE fs SET slug = ?, modified = ?, history = ? WHERE id = ?`. -/
def updateFsRow (rows : List FsRow) (id slug : String) (modified : Nat)
    (history : VersionedText) : List FsRow :=
  rows.map (fun r =>
    if r.id == id then
      { r with slug := slug, modified := modified, history := history }
    else r)

/-- The index sync of `Save`: `UPDATE fts SET data=? WHERE id=?` when
`idExists` reported the id, otherwise `INSERT INTO fts(data,id)`. -/
def syncFts (rows : List FtsRow) (id text : String) : List FtsRow :=
  if rows.any (fun t => t.id == id) then
    rows.map (fun t => if t.id == id then { t with data := text } else t)
  else rows ++ [⟨id, text⟩]

/-- `Save`: reload the stored rows for the id (caller's history is never
consulted), merge or start the history, resolve the owning domain
(erroring when it does not exist), then run the three committed write
steps: insert-or-ignore into `fs` (with `modified = time.Now()` and the
default 0 views), the explicit update of `slug`/`modified`/`history`,
and the `fts` sync.  Both `time.Now()` calls are modelled by `now`. -/
def Save (db : DB) (f : File) (now : Nat) : Except Err DB :=
  let hist := mergedHistory db f
  let domainid := (getDomainFromName db f.resolveDomain).1
  if domainid = 0 then .error Err.domainNotExist
  else
    let fs1 := insertOrIgnoreFs db.fs
      ⟨f.id, domainid, f.slug, f.created, now, hist, 0⟩
    let fs2 := updateFsRow fs1 f.id f.slug now hist
    let fts2 := syncFts db.fts f.id f.data
    .ok { db with fs := fs2, fts := fts2 }

/-- `UpdateKeys`: all per-key `UPDATE keys SET lastused=? WHERE key=?`
statements run inside ONE transaction that is committed only after the
loop; any statement failure returns immediately, so the uncommitted
transaction is discarded and no update takes effect.  `failAt = some i`
is the failure oracle saying the statement for the i-th key fails. -/
def UpdateKeys (failAt : Option Nat) (now : Nat) (db : DB) (ks : List String) :
    Except Err Unit × DB :=
  let committed : DB :=
    { db with keys := db.keys.map (fun r =>
        if ks.contains r.key then { r with lastused := now } else r) }
  match failAt with
  | some i => if i < ks.length then (.error Err.execFailed, db) else (.ok (), committed)
  | none => (.ok (), committed)

/-- `GetResizedImage`: reads `(name, data, views)` from `cached_images`,
then — verbatim from the source — runs `UPDATE blobs SET views=? WHERE
id=?` with `views+1`, i.e. it writes the incremented counter into the
BLOBS table, not into `cached_images`. -/
def GetResizedImage (db : DB) (id : String) :
    Except Err (String × String × Nat) × DB :=
  match db.cachedImages.find? (fun b => b.id == id) with
  | none => (.error Err.noRows, db)
  | some b =>
      (.ok (b.name, b.data, b.views),
       { db with blobs := db.blobs.map (fun r =>
           if r.id == id then { r with views := b.views + 1 } else r) })

/-- `GetBlob`: same shape as `GetResizedImage` but reading from and
writing to the `blobs` table. -/
def GetBlob (db : DB) (id : String) :
    Except Err (String × String × Nat) × DB :=
  match db.blobs.find? (fun b => b.id == id) with
  | none => (.error Err.noRows, db)
  | some b =>
      (.ok (b.name, b.data, b.views),
       { db with blobs := db.blobs.map (fun r =>
           if r.id == id then { r with views := b.views + 1 } else r) })

/-- The alphabet `UUID` draws from (`letterBytes` in `pkg/utils`). -/
def letterBytes : String :=
  "abcdefghijklmnopqrstuvwxyz0123456789"

/-- Follows the spec's words (for comparison with the code): "the
opaque-id shape" — a 10-character string over `UUID`'s alphabet, the
shape of every id `UUID()` generates. -/
def matchesIdShape (s : String) : Bool :=
  s.data.length == 10 && s.data.all (fun c => letterBytes.data.contains c)

/-- Follows the spec's words (for comparison with the code): `get` as the
spec describes it, branching on whether the identifier "matches the
opaque-id shape" instead of on the code's `isID` table probe. -/
def getSpecShape (db : DB) (id domain : String) : Except Err (List File) :=
  if matchesIdShape id then
    if (getById db id).length > 0 then .ok (getById db id)
    else .error Err.noFiles
  else
    if (getBySlug db id domain).length > 0 then .ok (getBySlug db id domain)
    else .error Err.noFiles

/-- Whitespace tokenizer used by the FTS5 model (structural recursion so
the kernel can evaluate it). -/
def tokensAux : List Char → List Char → List String
  | [], acc => [String.mk acc.reverse]
  | c :: cs, acc =>
      if c = ' ' then String.mk acc.reverse :: tokensAux cs []
      else tokensAux cs (c :: acc)

/-- The tokens of a document, split on spaces. -/
def tokens (s : String) : List String :=
  tokensAux s.data []

/-- Modelled from the spec: the FTS5 engine's MATCH for a plain term
query — the term occurs as a token of the document.  An empty document
has no tokens and matches nothing. -/
def ftsMatch (query text : String) : Bool :=
  !(query == "") && !(text == "") && (tokens text).contains query

/-- Modelled from the spec: `snippet(fts, 1, <b>, </b>, ..., 30)`
renders the document with a bolding marker around each matched term (for
documents short enough to fit the 30-token window no ellipsis
truncation occurs, which is the only case the proofs below evaluate). -/
def ftsSnippet (query text : String) : String :=
  String.intercalate " " ((tokens text).map
    (fun w => if w = query then "<b>" ++ query ++ "</b>" else w))

/-- The lock behavior of one public `FileSystem` method, read off the
source: whether the method calls `fs.Lock()` on entry, whether the
matching `fs.Unlock()` is scheduled with `defer` (and so runs on every
exit path), and whether the method touches the database connection. -/
structure OpLock where
  name : String
  locks : Bool
  unlocksAllPaths : Bool
  touchesDB : Bool
deriving Repr, DecidableEq

/-- Every public (exported) method of `FileSystem` that accesses the
database connection, with its lock behavior transcribed from the source.
`ExportPosts` and `ExportUploads` reach the connection only through the
methods listed here and are omitted, as are the schema-bootstrap
entry points `New` / `InitializeDB` that run before any concurrent use.
Note the three methods that do not take the lock: `Close`,
`LastModified` (no lock in the source) and `Exists` (its `fs.Lock()` /
`defer fs.Unlock()` lines are commented out). -/
def storeOps : List OpLock :=
  [⟨"SaveBlob", true, true, true⟩,
   ⟨"GetBlobIDs", true, true, true⟩,
   ⟨"GetDomains", true, true, true⟩,
   ⟨"SaveResizedImage", true, true, true⟩,
   ⟨"GetResizedImage", true, true, true⟩,
   ⟨"GetBlob", true, true, true⟩,
   ⟨"Save", true, true, true⟩,
   ⟨"Close", false, false, true⟩,
   ⟨"SetKey", true, true, true⟩,
   ⟨"UpdateViews", true, true, true⟩,
   ⟨"CheckKey", true, true, true⟩,
   ⟨"UpdateKeys", true, true, true⟩,
   ⟨"SetDomain", true, true, true⟩,
   ⟨"UpdateDomain", true, true, true⟩,
   ⟨"GetDomainFromName", true, true, true⟩,
   ⟨"GetAll", true, true, true⟩,
   ⟨"GetTopX", true, true, true⟩,
   ⟨"GetTopXMostViews", true, true, true⟩,
   ⟨"Get", true, true, true⟩,
   ⟨"LastModified", false, false, true⟩,
   ⟨"Find", true, true, true⟩,
   ⟨"Exists", false, false, true⟩]

/-- The row `Save` hands to `INSERT OR IGNORE`. -/
def savedRow (db : DB) (f : File) (now : Nat) : FsRow :=
  ⟨f.id, (getDomainFromName db f.resolveDomain).1, f.slug, f.created, now,
   mergedHistory db f, 0⟩

/-- The database state a successful `Save` commits. -/
def savedDB (db : DB) (f : File) (now : Nat) : DB :=
  { db with
    fs := updateFsRow (insertOrIgnoreFs db.fs (savedRow db f now))
      f.id f.slug now (mergedHistory db f),
    fts := syncFts db.fts f.id f.data }

/-! ### Concrete inputs used by the evidence, counterexample and witness
theorems below -/

/-- A stand-in for the abstract bcrypt hash parameter. -/
def bcryptDemo (s : String) : String :=
  "bc:" ++ s

def dbFoo : DB :=
  { fs := [], fts := [], domains := [⟨1, "foo", "h0", 0, ""⟩],
    keys := [], blobs := [], cachedImages := [] }

def dbImg : DB :=
  { fs := [], fts := [], domains := [], keys := [],
    blobs := [⟨"img1", "bn", "bd", 7⟩],
    cachedImages := [⟨"img1", "nm", "payload", 5⟩] }

def dbC2 : DB :=
  { fs := [], fts := [], domains := [⟨1, "public", "hp", 1, ""⟩],
    keys := [], blobs := [], cachedImages := [] }

def fC2 : File :=
  { id := "aaaaaaaaaa", slug := "s", created := 1, modified := 1,
    data := "hi", domain := "public", history := VersionedText.zero, views := 0 }

def dbC1 : DB :=
  { fs := [⟨"aaaaaaaaaa", 1, "s", 1, 2, ⟨"v1", ["v1"]⟩, 0⟩],
    fts := [], domains := [⟨1, "public", "hp", 1, ""⟩],
    keys := [], blobs := [], cachedImages := [] }

def fC1 : File :=
  { id := "aaaaaaaaaa", slug := "s", created := 1, modified := 2,
    data := "v2", domain := "public", history := VersionedText.zero, views := 0 }

def dbC4 : DB :=
  { fs := [⟨"qqqqqqqqqq", 1, "abcdefghij", 1, 2, ⟨"hello", ["hello"]⟩, 0⟩],
    fts := [⟨"qqqqqqqqqq", "hello"⟩],
    domains := [⟨1, "public", "hp", 1, ""⟩],
    keys := [], blobs := [], cachedImages := [] }

def dbC6 : DB :=
  { fs := [], fts := [], domains := [],
    keys := [⟨1, 1, "k1", 0⟩, ⟨2, 1, "k2", 0⟩],
    blobs := [], cachedImages := [] }

def dbC9 : DB :=
  { fs := [⟨"aaaaaaaaaa", 1, "s", 1, 2, ⟨"hello world", ["hello world"]⟩, 0⟩],
    fts := [⟨"aaaaaaaaaa", "hello world"⟩],
    domains := [⟨1, "public", "hp", 1, ""⟩],
    keys := [], blobs := [], cachedImages := [] }

def dbW1 : DB :=
  { fs := [⟨"aaaaaaaaaa", 1, "s", 1, 2, ⟨"v1", ["v1"]⟩, 0⟩],
    fts := [⟨"aaaaaaaaaa", "v1"⟩],
    domains := [⟨1, "public", "hp", 1, ""⟩],
    keys := [], blobs := [], cachedImages := [] }

def fW1 : File :=
  { id := "aaaaaaaaaa", slug := "s", created := 1, modified := 2,
    data := "v2", domain := "public", history := VersionedText.zero, views := 0 }

def rW1 : FsRow :=
  ⟨"aaaaaaaaaa", 1, "s", 1, 2, ⟨"v1", ["v1"]⟩, 0⟩

def dbW2 : DB :=
  { fs := [], fts := [], domains := [⟨1, "public", "hp", 1, ""⟩],
    keys := [], blobs := [], cachedImages := [] }

def fW2 : File :=
  { id := "aaaaaaaaaa", slug := "s", created := 1, modified := 1,
    data := "hi", domain := "public", history := VersionedText.zero, views := 0 }

def dbW4 : DB :=
  { fs := [⟨"aaaaaaaaaa", 1, "s", 1, 2, ⟨"v1", ["v1"]⟩, 0⟩],
    fts := [⟨"aaaaaaaaaa", "v1"⟩],
    domains := [⟨1, "public", "hp", 1, ""⟩],
    keys := [], blobs := [], cachedImages := [] }

def dbW5 : DB :=
  { fs := [], fts := [], domains := [⟨1, "public", "hp", 1, ""⟩],
    keys := [], blobs := [], cachedImages := [] }

def fW5 : File :=
  { id := "aaaaaaaaaa", slug := "s", created := 1, modified := 1,
    data := "", domain := "public", history := VersionedText.zero, views := 0 }

def dbW9 : DB :=
  { fs := [⟨"bbbbbbbbbb", 1, "s", 1, 2, ⟨"v1", ["v1"]⟩, 0⟩],
    fts := [], domains := [⟨1, "public", "hp", 1, ""⟩],
    keys := [], blobs := [], cachedImages := [] }

def dbW10 : DB :=
  { fs := [⟨"aaaaaaaaaa", 1, "s", 1, 2, ⟨"v1", ["v1"]⟩, 3⟩],
    fts := [⟨"aaaaaaaaaa", "v1"⟩],
    domains := [⟨1, "public", "hp", 1, ""⟩],
    keys := [], blobs := [], cachedImages := [] }

def fW10 : File :=
  { id := "aaaaaaaaaa", slug := "s2", created := 99, modified := 1,
    data := "v2", domain := "public", history := VersionedText.zero, views := 0 }

/-! ### Helper lemmas about the query building blocks -/

theorem mem_insertByDesc {k : α → Nat} {a x : α} {l : List α} :
    x ∈ insertByDesc k a l ↔ x = a ∨ x ∈ l := by
  induction l with
  | nil => simp [insertByDesc]
  | cons y ys ih =>
      simp only [insertByDesc]
      split
      · simp [List.mem_cons]
      · simp only [List.mem_cons, ih]
        tauto

theorem mem_sortByDesc {k : α → Nat} {x : α} {l : List α} :
    x ∈ sortByDesc k l ↔ x ∈ l := by
  induction l with
  | nil => simp [sortByDesc]
  | cons y ys ih => simp [sortByDesc, mem_insertByDesc, ih]

theorem pairwise_insertByDesc {k : α → Nat} {a : α} {l : List α}
    (h : l.Pairwise (fun u v => k v ≤ k u)) :
    (insertByDesc k a l).Pairwise (fun u v => k v ≤ k u) := by
  induction l with
  | nil => simp [insertByDesc]
  | cons y ys ih =>
      rw [List.pairwise_cons] at h
      simp only [insertByDesc]
      split
      · rename_i hle
        refine List.Pairwise.cons ?_ (List.Pairwise.cons h.1 h.2)
        intro z hz
        rcases List.mem_cons.1 hz with rfl | hz'
        · exact hle
        · exact le_trans (h.1 z hz') hle
      · rename_i hgt
        refine List.Pairwise.cons ?_ (ih h.2)
        intro z hz
        rcases mem_insertByDesc.1 hz with rfl | hz'
        · exact le_of_not_le hgt
        · exact h.1 z hz'

theorem pairwise_sortByDesc {k : α → Nat} {l : List α} :
    (sortByDesc k l).Pairwise (fun u v => k v ≤ k u) := by
  induction l with
  | nil => simp [sortByDesc]
  | cons y ys ih => exact pairwise_insertByDesc ih

theorem mem_joinRows {fsR : List FsRow} {ftsR : List FtsRow} {dR : List DomainRow}
    {domain : String} {g : File} :
    g ∈ joinRows fsR ftsR dR domain ↔
      ∃ r ∈ fsR, ∃ t ∈ ftsR, t.id = r.id ∧
        (∃ d ∈ dR, r.domainid = d.id ∧ d.name = domain) ∧
        g = rowToFile r t.data := by
  simp only [joinRows, List.mem_flatMap, List.mem_filter, List.mem_map,
    Bool.and_eq_true, beq_iff_eq]
  constructor
  · rintro ⟨r, hr, t, ⟨ht, hti⟩, d, ⟨hd, hdi, hdn⟩, rfl⟩
    exact ⟨r, hr, t, ht, hti, ⟨d, hd, hdi, hdn⟩, rfl⟩
  · rintro ⟨r, hr, t, ht, hti, ⟨d, hd, hdi, hdn⟩, rfl⟩
    exact ⟨r, hr, t, ⟨ht, hti⟩, d, ⟨hd, hdi, hdn⟩, rfl⟩

theorem mem_findRows {m : String → String → Bool} {snip : String → String → String}
    {db : DB} {text domain : String} {g : File} :
    g ∈ findRows m snip db text domain ↔
      ∃ t ∈ db.fts, m text t.data = true ∧
        ∃ r ∈ db.fs, r.id = t.id ∧
          (∃ d ∈ db.domains, r.domainid = d.id ∧ d.name = domain) ∧
          g = rowToFile r (snip text t.data) := by
  simp only [findRows, List.mem_flatMap, List.mem_filter, List.mem_map,
    Bool.and_eq_true, beq_iff_eq]
  constructor
  · rintro ⟨t, ⟨ht, hm⟩, r, ⟨hr, hri⟩, d, ⟨hd, hdi, hdn⟩, rfl⟩
    exact ⟨t, ht, hm, r, hr, hri, ⟨d, hd, hdi, hdn⟩, rfl⟩
  · rintro ⟨t, ht, hm, r, hr, hri, ⟨d, hd, hdi, hdn⟩, rfl⟩
    exact ⟨t, ⟨ht, hm⟩, r, ⟨hr, hri⟩, d, ⟨hd, hdi, hdn⟩, rfl⟩

theorem mem_getById {db : DB} {i : String} {g : File}
    (h : g ∈ getById db i) :
    ∃ r ∈ db.fs, r.id = i ∧ ∃ t ∈ db.fts, t.id = r.id ∧ g = rowToFile r t.data := by
  have h' := List.take_subset 1 _ h
  simp only [List.mem_flatMap, List.mem_filter, List.mem_map, beq_iff_eq] at h'
  obtain ⟨r, ⟨hr, hri⟩, t, ⟨ht, hti⟩, rfl⟩ := h'
  exact ⟨r, hr, hri, t, ht, hti, rfl⟩

/-- When the id has a row in `fs` and a row in `fts`, the id branch of
`get` produces exactly one `File`, whose text is the `fts` data (which
hypothesis `hdata` pins down) and whose `Domain` field is empty. -/
theorem getById_spec {db : DB} {i D : String}
    (hfs : db.fs.any (fun r => r.id == i) = true)
    (hfts : db.fts.any (fun t => t.id == i) = true)
    (hdata : ∀ t ∈ db.fts, t.id = i → t.data = D) :
    ∃ g, getById db i = [g] ∧ g.id = i ∧ g.data = D ∧ g.domain = "" := by
  rw [List.any_eq_true] at hfs hfts
  obtain ⟨r, hr, hri⟩ := hfs
  obtain ⟨t, ht, hti⟩ := hfts
  rw [beq_iff_eq] at hri hti
  have hrmem : r ∈ db.fs.filter (fun r => r.id == i) :=
    List.mem_filter.2 ⟨hr, by simp [hri]⟩
  have htmem : t ∈ db.fts.filter (fun t => t.id == r.id) :=
    List.mem_filter.2 ⟨ht, by simp [hti, hri]⟩
  unfold getById
  rcases hf : db.fs.filter (fun r => r.id == i) with _ | ⟨r0, rs⟩
  · rw [hf] at hrmem; simp at hrmem
  · have hr0 : r0 ∈ db.fs ∧ r0.id = i := by
      have : r0 ∈ db.fs.filter (fun r => r.id == i) := by rw [hf]; simp
      exact ⟨(List.mem_filter.1 this).1, by
        have := (List.mem_filter.1 this).2; simpa using this⟩
    rcases hf2 : db.fts.filter (fun t => t.id == r0.id) with _ | ⟨t0, ts⟩
    · exfalso
      have : t ∈ db.fts.filter (fun t => t.id == r0.id) :=
        List.mem_filter.2 ⟨ht, by simp [hti, hr0.2]⟩
      rw [hf2] at this; simp at this
    · have ht0 : t0 ∈ db.fts ∧ t0.id = r0.id := by
        have : t0 ∈ db.fts.filter (fun t => t.id == r0.id) := by rw [hf2]; simp
        exact ⟨(List.mem_filter.1 this).1, by
          have := (List.mem_filter.1 this).2; simpa using this⟩
      refine ⟨rowToFile r0 t0.data, ?_, by simp [rowToFile, hr0.2], ?_, rfl⟩
      · rw [hf]
        simp only [List.flatMap_cons]
        rw [hf2]
        simp
      · exact hdata t0 ht0.1 (by rw [ht0.2, hr0.2])

/-! ### Helper lemmas about the write steps of `Save` -/

theorem save_eq_ok (db : DB) (f : File) (now : Nat)
    (hdom : (getDomainFromName db f.resolveDomain).1 ≠ 0) :
    Save db f now = .ok (savedDB db f now) := by
  simp only [Save, savedDB, savedRow]
  rw [if_neg hdom]

theorem insertOrIgnoreFs_of_mem {l : List FsRow} {r : FsRow}
    (h : l.any (fun x => x.id == r.id) = true) :
    insertOrIgnoreFs l r = l := by
  simp [insertOrIgnoreFs, h]

theorem insertOrIgnoreFs_of_fresh {l : List FsRow} {r : FsRow}
    (h : l.any (fun x => x.id == r.id) = false) :
    insertOrIgnoreFs l r = l ++ [r] := by
  simp [insertOrIgnoreFs, h]

theorem any_id_insertOrIgnoreFs (l : List FsRow) (r : FsRow) :
    (insertOrIgnoreFs l r).any (fun x => x.id == r.id) = true := by
  unfold insertOrIgnoreFs
  split
  · assumption
  · simp

theorem any_id_updateFsRow (l : List FsRow) (i s : String) (m : Nat)
    (h : VersionedText) (j : String) :
    (updateFsRow l i s m h).any (fun x => x.id == j) = l.any (fun x => x.id == j) := by
  induction l with
  | nil => rfl
  | cons y ys ih =>
      simp only [updateFsRow, List.map_cons, List.any_cons] at *
      split <;> simp_all

theorem mem_updateFsRow {l : List FsRow} {i s : String} {m : Nat}
    {h : VersionedText} {x : FsRow} (hx : x ∈ updateFsRow l i s m h) :
    (x ∈ l ∧ x.id ≠ i) ∨
    ∃ y ∈ l, y.id = i ∧ x = { y with slug := s, modified := m, history := h } := by
  simp only [updateFsRow, List.mem_map] at hx
  obtain ⟨y, hy, hyx⟩ := hx
  by_cases hc : y.id = i
  · right
    refine ⟨y, hy, hc, ?_⟩
    rw [← hyx]
    simp [hc]
  · left
    have hxy : x = y := by rw [← hyx]; simp [hc]
    exact ⟨hxy ▸ hy, by rw [hxy]; exact hc⟩

theorem syncFts_data {rows : List FtsRow} {i d : String} :
    ∀ t ∈ syncFts rows i d, t.id = i → t.data = d := by
  intro t ht hti
  unfold syncFts at ht
  split at ht
  · simp only [List.mem_map] at ht
    obtain ⟨u, hu, hut⟩ := ht
    by_cases hc : u.id = i
    · rw [← hut]; simp [hc]
    · exfalso
      rw [← hut] at hti
      simp [hc] at hti
  · rename_i hany
    rcases List.mem_append.1 ht with hmem | hmem
    · exfalso
      have : rows.any (fun t => t.id == i) = true :=
        List.any_eq_true.2 ⟨t, hmem, by simp [hti]⟩
      exact hany this
    · simp only [List.mem_singleton] at hmem
      rw [hmem]

theorem any_id_syncFts (rows : List FtsRow) (i d : String) :
    (syncFts rows i d).any (fun t => t.id == i) = true := by
  unfold syncFts
  split
  · rename_i hany
    rw [List.any_eq_true] at hany ⊢
    obtain ⟨t, ht, hti⟩ := hany
    refine ⟨if t.id == i then { t with data := d } else t,
      List.mem_map.2 ⟨t, ht, rfl⟩, ?_⟩
    simp only [hti, if_true]
  · simp

theorem getById_of_filter_single {db : DB} {i : String} {r : FsRow}
    (hrow : db.fs.filter (fun x => x.id == i) = [r])
    (hfts : db.fts.any (fun t => t.id == i) = true) :
    ∃ t ∈ db.fts, t.id = i ∧ getById db i = [rowToFile r t.data] := by
  have hri : r.id = i := by
    have : r ∈ db.fs.filter (fun x => x.id == i) := by rw [hrow]; simp
    simpa using (List.mem_filter.1 this).2
  rw [List.any_eq_true] at hfts
  obtain ⟨t1, ht1, hti1⟩ := hfts
  rw [beq_iff_eq] at hti1
  rcases hf2 : db.fts.filter (fun t => t.id == r.id) with _ | ⟨t0, ts⟩
  · exfalso
    have : t1 ∈ db.fts.filter (fun t => t.id == r.id) :=
      List.mem_filter.2 ⟨ht1, by simp [hti1, hri]⟩
    rw [hf2] at this
    simp at this
  · have ht0 : t0 ∈ db.fts ∧ t0.id = r.id := by
      have : t0 ∈ db.fts.filter (fun t => t.id == r.id) := by rw [hf2]; simp
      exact ⟨(List.mem_filter.1 this).1, by
        have := (List.mem_filter.1 this).2; simpa using this⟩
    refine ⟨t0, ht0.1, by rw [ht0.2, hri], ?_⟩
    unfold getById
    rw [hrow]
    simp only [List.flatMap_cons, List.flatMap_nil]
    rw [hf2]
    simp

/-- Inverting a successful `get`: the result is the non-empty row list
of whichever branch `isID` selected. -/
theorem get_ok_inv {db : DB} {i domain : String} {l : List File}
    (hok : get db i domain = .ok l) :
    l ≠ [] ∧
    ((isID db i = true ∧ l = getById db i) ∨
     (isID db i = false ∧ l = getBySlug db i domain)) := by
  unfold get at hok
  by_cases h : isID db i = true
  · rw [if_pos h] at hok
    split at hok
    · rename_i hlen
      injection hok with hok'
      subst hok'
      exact ⟨List.length_pos.1 hlen, Or.inl ⟨h, rfl⟩⟩
    · exact absurd hok (by simp)
  · rw [if_neg h] at hok
    split at hok
    · rename_i hlen
      injection hok with hok'
      subst hok'
      exact ⟨List.length_pos.1 hlen, Or.inr ⟨Bool.not_eq_true _ ▸ h, rfl⟩⟩
    · exact absurd hok (by simp)

/-- The only error `get` produces is "no files with that slug or id". -/
theorem get_error_inv {db : DB} {i domain : String} {e : Err}
    (he : get db i domain = .error e) : e = Err.noFiles := by
  unfold get at he
  by_cases h : isID db i = true
  · rw [if_pos h] at he
    split at he
    · exact absurd he (by simp)
    · injection he with he'
      exact he'.symm
  · rw [if_neg h] at he
    split at he
    · exact absurd he (by simp)
    · injection he with he'
      exact he'.symm

/-- Every file in the listing join carries the text of its own `fts`
row, and that text passed the `LENGTH > 0` filter. -/
theorem mem_listed_join {db : DB} {domain : String} {g : File}
    (hg : g ∈ (joinRows db.fs db.fts db.domains domain).filter
      (fun x => decide (0 < x.data.length))) :
    ∃ t ∈ db.fts, t.id = g.id ∧ t.data = g.data ∧ 0 < g.data.length := by
  obtain ⟨hj, hlen⟩ := List.mem_filter.1 hg
  obtain ⟨r, _, t, ht, hti, _, rfl⟩ := mem_joinRows.1 hj
  exact ⟨t, ht, hti, rfl, by simpa using hlen⟩

/-! ### Claim theorems -/

/-- Claim C1 (amended): for a file id already stored WITH its full-text
index row present — the state every completed `Save` leaves (exactly one
`fs` row carries the id and the id is indexed in `fts`) — a `Save` with
that id and new data (a) never consults the caller's history field, and
(b) succeeds and leaves the stored row's history equal to the STORED
history with the incoming data replayed as one new version, so the
stored version sequence extends the previous one and no history entry
is lost.  (Without the index row the reload comes back empty and the
history restarts: see the counterexample.) -/
theorem save_merges_stored_history (db : DB) (f : File) (now : Nat) (r : FsRow)
    (hrow : db.fs.filter (fun x => x.id == f.id) = [r])
    (hfts : db.fts.any (fun t => t.id == f.id) = true)
    (hdom : (getDomainFromName db f.resolveDomain).1 ≠ 0) :
    (∀ h, Save db { f with history := h } now = Save db f now) ∧
    ∃ db', Save db f now = .ok db' ∧
      ∀ r' ∈ db'.fs, r'.id = f.id →
        r'.history = r.history.update f.data ∧
        ∃ tail, r.history.snapshots ++ tail = r'.history.snapshots := by
  have hised : isID db f.id = true := by
    rw [isID, List.any_eq_true]
    have hmem : r ∈ db.fs.filter (fun x => x.id == f.id) := by rw [hrow]; simp
    exact ⟨r, (List.mem_filter.1 hmem).1, (List.mem_filter.1 hmem).2⟩
  obtain ⟨t, ht, hti, hgb⟩ := getById_of_filter_single hrow hfts
  have hget : get db f.id f.domain = .ok [rowToFile r t.data] := by
    simp [get, hised, hgb]
  have hmh : mergedHistory db f = r.history.update f.data := by
    simp [mergedHistory, storedFiles, hget, rowToFile]
  refine ⟨fun h => rfl, savedDB db f now, save_eq_ok db f now hdom, ?_⟩
  intro r' hr' hid
  have hins : insertOrIgnoreFs db.fs (savedRow db f now) = db.fs :=
    insertOrIgnoreFs_of_mem hised
  have hr'' : r' ∈ updateFsRow db.fs f.id f.slug now (mergedHistory db f) := by
    have : (savedDB db f now).fs =
        updateFsRow db.fs f.id f.slug now (mergedHistory db f) := by
      show updateFsRow (insertOrIgnoreFs db.fs (savedRow db f now))
        f.id f.slug now (mergedHistory db f) = _
      rw [hins]
    rw [← this]
    exact hr'
  rcases mem_updateFsRow hr'' with ⟨_, hne⟩ | ⟨y, _, _, hEq⟩
  · exact absurd hid hne
  · have hh : r'.history = r.history.update f.data := by rw [hEq, ← hmh]
    exact ⟨hh, [f.data], by rw [hh]; rfl⟩

/-- Claim C2 (amended): after a successful `Save`, `get(f.id, f.domain)`
returns exactly one file whose current text equals the data passed to
save — but whose `Domain` FIELD is the empty string (the id-lookup path
never populates it).  The stored row's owning domain id does equal the
id of `f`'s (resolved) domain whenever the file id was fresh. -/
theorem save_get_roundtrip (db : DB) (f : File) (now : Nat)
    (hdom : (getDomainFromName db f.resolveDomain).1 ≠ 0) :
    ∃ db', Save db f now = .ok db' ∧
      (∃ g, get db' f.id f.domain = .ok [g] ∧
        g.id = f.id ∧ g.data = f.data ∧ g.domain = "") ∧
      (db.fs.any (fun x => x.id == f.id) = false →
        ∀ r' ∈ db'.fs, r'.id = f.id →
          r'.domainid = (getDomainFromName db f.resolveDomain).1) := by
  refine ⟨savedDB db f now, save_eq_ok db f now hdom, ?_, ?_⟩
  · have hfs : (savedDB db f now).fs.any (fun x => x.id == f.id) = true := by
      show (updateFsRow (insertOrIgnoreFs db.fs (savedRow db f now))
        f.id f.slug now (mergedHistory db f)).any (fun x => x.id == f.id) = true
      rw [any_id_updateFsRow]
      exact any_id_insertOrIgnoreFs db.fs (savedRow db f now)
    have hfts : (savedDB db f now).fts.any (fun t => t.id == f.id) = true :=
      any_id_syncFts db.fts f.id f.data
    have hdata : ∀ t ∈ (savedDB db f now).fts, t.id = f.id → t.data = f.data :=
      syncFts_data
    obtain ⟨g, hg, hgi, hgd, hgdom⟩ := getById_spec hfs hfts hdata
    have hisid : isID (savedDB db f now) f.id = true := hfs
    exact ⟨g, by simp [get, hisid, hg], hgi, hgd, hgdom⟩
  · intro hfresh r' hr' hid
    have hins : insertOrIgnoreFs db.fs (savedRow db f now) =
        db.fs ++ [savedRow db f now] :=
      insertOrIgnoreFs_of_fresh hfresh
    have hr'' : r' ∈ updateFsRow (db.fs ++ [savedRow db f now])
        f.id f.slug now (mergedHistory db f) := by
      rw [← hins]
      exact hr'
    rcases mem_updateFsRow hr'' with ⟨_, hne⟩ | ⟨y, hy, hyi, hEq⟩
    · exact absurd hid hne
    · rcases List.mem_append.1 hy with hmem | hmem
      · exfalso
        have : db.fs.any (fun x => x.id == f.id) = true :=
          List.any_eq_true.2 ⟨y, hmem, by simp [hyi]⟩
        rw [hfresh] at this
        exact Bool.false_ne_true this
      · simp only [List.mem_singleton] at hmem
        rw [hEq, hmem]
        rfl

/-- Claim C10: when `Save` is called with an id that already has a
stored row, the committed state's `fs` table is exactly the old one
with ONLY `slug`, `modified` and `history` rewritten on the rows
carrying that id: `created`, `domainid` and `views` are untouched, and
so is the `domains` table, whatever domain or created timestamp the
caller passes in. -/
theorem save_update_frame (db : DB) (f : File) (now : Nat)
    (hex : db.fs.any (fun x => x.id == f.id) = true)
    (hdom : (getDomainFromName db f.resolveDomain).1 ≠ 0) :
    ∃ db', Save db f now = .ok db' ∧
      db'.fs = db.fs.map (fun r =>
        if r.id == f.id then
          { r with slug := f.slug, modified := now, history := mergedHistory db f }
        else r) ∧
      db'.domains = db.domains := by
  refine ⟨savedDB db f now, save_eq_ok db f now hdom, ?_, rfl⟩
  show updateFsRow (insertOrIgnoreFs db.fs (savedRow db f now))
    f.id f.slug now (mergedHistory db f) = _
  rw [insertOrIgnoreFs_of_mem hex]
  rfl

/-- Claim C4 (amended): `get(identifier, domain)` branches on whether the
identifier is an id PRESENT IN the `fs` table (`isID`) — not on the
identifier's shape.  In the id branch the domain argument is ignored and
every result carries that id; in the slug branch every result has the
identifier as its slug and belongs to the given domain, and the results
are ordered by most-recently-modified first; a successful `get` is never
empty and the only failure is `NotFound` ("no files..."). -/
theorem get_resolution (db : DB) (i domain : String) :
    (isID db i = true → ∀ d', get db i d' = get db i domain) ∧
    (∀ l, get db i domain = .ok l → l ≠ [] ∧ ∀ g ∈ l,
      (isID db i = true → g.id = i) ∧
      (isID db i = false → g.slug = i ∧
        ∃ r ∈ db.fs, r.id = g.id ∧
          ∃ d ∈ db.domains, r.domainid = d.id ∧ d.name = domain)) ∧
    (isID db i = false → ∀ l, get db i domain = .ok l →
      l.Pairwise (fun a g => g.modified ≤ a.modified)) ∧
    (∀ e, get db i domain = .error e → e = Err.noFiles) := by
  refine ⟨fun h d' => by simp [get, h], ?_, ?_, fun e he => get_error_inv he⟩
  · intro l hok
    obtain ⟨hne, hcases⟩ := get_ok_inv hok
    refine ⟨hne, fun g hg => ⟨?_, ?_⟩⟩
    · intro h
      rcases hcases with ⟨_, rfl⟩ | ⟨hfalse, _⟩
      · obtain ⟨r, _, hri, t, _, _, rfl⟩ := mem_getById hg
        exact hri
      · rw [h] at hfalse
        cases hfalse
    · intro h
      rcases hcases with ⟨htrue, _⟩ | ⟨_, rfl⟩
      · rw [h] at htrue
        cases htrue
      · have hg' := mem_sortByDesc.1 hg
        obtain ⟨r, hrf, t, ht, hti, ⟨d, hd, hdi, hdn⟩, rfl⟩ := mem_joinRows.1 hg'
        have hr2 := List.mem_filter.1 hrf
        refine ⟨by simpa using hr2.2, r, hr2.1, rfl, d, hd, hdi, hdn⟩
  · intro h l hok
    obtain ⟨_, hcases⟩ := get_ok_inv hok
    rcases hcases with ⟨htrue, _⟩ | ⟨_, rfl⟩
    · rw [h] at htrue
      cases htrue
    · exact pairwise_sortByDesc

/-- Claim C9 (amended): an id with an `fs` row but no `fts` row is
`NotFound` to `get`; every file returned by `get`, `GetAll`, `GetTopX`
or `GetTopXMostViews` carries exactly the text of its `fts` index row
(the `fs` row stores only the serialized history, and in this model has
no text column at all); `Find` however returns the SNIPPET rendered
from the index row's content, not the content itself. -/
theorem text_from_index (db : DB) (i domain q : String) (b : Bool) (n : Nat)
    (m : String → String → Bool) (snip : String → String → String) :
    (isID db i = true → idExists db i = false →
      get db i domain = .error Err.noFiles) ∧
    (∀ l, get db i domain = .ok l →
      ∀ g ∈ l, ∃ t ∈ db.fts, t.id = g.id ∧ t.data = g.data) ∧
    (∀ g ∈ GetAll db domain b, ∃ t ∈ db.fts, t.id = g.id ∧ t.data = g.data) ∧
    (∀ g ∈ GetTopX db domain n b, ∃ t ∈ db.fts, t.id = g.id ∧ t.data = g.data) ∧
    (∀ g ∈ GetTopXMostViews db domain n,
      ∃ t ∈ db.fts, t.id = g.id ∧ t.data = g.data) ∧
    (∀ g ∈ Find m snip db q domain,
      ∃ t ∈ db.fts, t.id = g.id ∧ g.data = snip q t.data ∧ m q t.data = true) := by
  refine ⟨?_, ?_, ?_, ?_, ?_, ?_⟩
  · intro hid hnofts
    have hnofts' : db.fts.any (fun t => t.id == i) = false := hnofts
    have hempty : getById db i = [] := by
      rcases hgb : getById db i with _ | ⟨g, gs⟩
      · rfl
      · exfalso
        have hg : g ∈ getById db i := by rw [hgb]; simp
        obtain ⟨r, _, hri, t, ht, hti, rfl⟩ := mem_getById hg
        have : db.fts.any (fun t => t.id == i) = true :=
          List.any_eq_true.2 ⟨t, ht, by simp [hti, hri]⟩
        rw [hnofts'] at this
        cases this
    simp [get, hid, hempty]
  · intro l hok g hg
    obtain ⟨_, hcases⟩ := get_ok_inv hok
    rcases hcases with ⟨_, rfl⟩ | ⟨_, rfl⟩
    · obtain ⟨r, _, _, t, ht, hti, rfl⟩ := mem_getById hg
      exact ⟨t, ht, hti, rfl⟩
    · have hg' := mem_sortByDesc.1 hg
      obtain ⟨r, _, t, ht, hti, _, rfl⟩ := mem_joinRows.1 hg'
      exact ⟨t, ht, hti, rfl⟩
  · intro g hg
    simp only [GetAll, List.mem_map] at hg
    obtain ⟨g0, hg0, rfl⟩ := hg
    have hg0' : g0 ∈ (joinRows db.fs db.fts db.domains domain).filter
        (fun x => decide (0 < x.data.length)) := by
      cases b <;> simpa [mem_sortByDesc] using hg0
    obtain ⟨t, ht, hti, htd, _⟩ := mem_listed_join hg0'
    exact ⟨t, ht, hti, htd⟩
  · intro g hg
    simp only [GetTopX] at hg
    have hg0 := List.take_subset n _ hg
    have hg0' : g ∈ (joinRows db.fs db.fts db.domains domain).filter
        (fun x => decide (0 < x.data.length)) := by
      cases b <;> simpa [mem_sortByDesc] using hg0
    obtain ⟨t, ht, hti, htd, _⟩ := mem_listed_join hg0'
    exact ⟨t, ht, hti, htd⟩
  · intro g hg
    simp only [GetTopXMostViews] at hg
    have hg0 := List.take_subset n _ hg
    have hg0' : g ∈ (joinRows db.fs db.fts db.domains domain).filter
        (fun x => decide (0 < x.data.length)) := by
      simpa [mem_sortByDesc] using hg0
    obtain ⟨t, ht, hti, htd, _⟩ := mem_listed_join hg0'
    exact ⟨t, ht, hti, htd⟩
  · intro g hg
    have hg' := mem_sortByDesc.1 hg
    obtain ⟨t, ht, hmq, r, _, hri, _, rfl⟩ := mem_findRows.1 hg'
    exact ⟨t, ht, hri.symm, rfl, hmq⟩

/-- Claim C5: a file saved with empty text is absent from `GetAll` (its
index row fails the `LENGTH(fts.data) > 0` filter) and from `Find`
results (for any match predicate that cannot match an empty document,
as FTS5's cannot), yet `get` by its id still returns it. -/
theorem empty_save_excluded (db : DB) (f : File) (now : Nat)
    (dom2 dom3 q : String) (b : Bool)
    (m : String → String → Bool) (snip : String → String → String)
    (hdom : (getDomainFromName db f.resolveDomain).1 ≠ 0)
    (hempty : f.data = "")
    (hm : m q "" = false) :
    ∃ db', Save db f now = .ok db' ∧
      (∀ g ∈ GetAll db' dom2 b, g.id ≠ f.id) ∧
      (∀ g ∈ Find m snip db' q dom3, g.id ≠ f.id) ∧
      (∃ g, get db' f.id f.domain = .ok [g] ∧ g.id = f.id ∧ g.data = "") := by
  have hdata : ∀ t ∈ (savedDB db f now).fts, t.id = f.id → t.data = f.data :=
    syncFts_data
  refine ⟨savedDB db f now, save_eq_ok db f now hdom, ?_, ?_, ?_⟩
  · intro g hg hgid
    simp only [GetAll, List.mem_map] at hg
    obtain ⟨g0, hg0, rfl⟩ := hg
    have hg0' : g0 ∈ (joinRows (savedDB db f now).fs (savedDB db f now).fts
        (savedDB db f now).domains dom2).filter
        (fun x => decide (0 < x.data.length)) := by
      cases b <;> simpa [mem_sortByDesc] using hg0
    obtain ⟨t, ht, hti, htd, hlen⟩ := mem_listed_join hg0'
    have hgid0 : g0.id = f.id := hgid
    have htempty : t.data = "" := by
      rw [← hempty]
      exact hdata t ht (by rw [hti, hgid0])
    rw [htd] at htempty
    rw [htempty] at hlen
    simp at hlen
  · intro g hg hgid
    have hg' := mem_sortByDesc.1 hg
    obtain ⟨t, ht, hmq, r, _, hri, _, rfl⟩ := mem_findRows.1 hg'
    have htid : t.id = f.id := by rw [← hri]; exact hgid
    have htempty : t.data = "" := by
      rw [← hempty]
      exact hdata t ht htid
    rw [htempty, hm] at hmq
    cases hmq
  · have hfs : (savedDB db f now).fs.any (fun x => x.id == f.id) = true := by
      show (updateFsRow (insertOrIgnoreFs db.fs (savedRow db f now))
        f.id f.slug now (mergedHistory db f)).any (fun x => x.id == f.id) = true
      rw [any_id_updateFsRow]
      exact any_id_insertOrIgnoreFs db.fs (savedRow db f now)
    have hfts : (savedDB db f now).fts.any (fun t => t.id == f.id) = true :=
      any_id_syncFts db.fts f.id f.data
    obtain ⟨g, hg, hgi, hgd, _⟩ := getById_spec hfs hfts hdata
    have hisid : isID (savedDB db f now) f.id = true := hfs
    exact ⟨g, by simp [get, hisid, hg], hgi, by rw [hgd, hempty]⟩

/-- Claim C6 (amended): `UpdateKeys` runs every per-key timestamp update
inside ONE transaction committed after the loop.  A failure while
updating any token aborts the whole call: the error is returned and NO
timestamp update takes effect, the remaining tokens' included.  Only
when every statement succeeds do all rows whose key is listed get the
new timestamp (rows with unlisted keys are untouched). -/
theorem updateKeys_single_transaction (failAt : Option Nat) (now : Nat)
    (db : DB) (ks : List String) :
    (∀ i, failAt = some i → i < ks.length →
      UpdateKeys failAt now db ks = (.error Err.execFailed, db)) ∧
    ((UpdateKeys failAt now db ks).1 = .ok () →
      ∀ r ∈ db.keys,
        (r.key ∈ ks → { r with lastused := now } ∈ (UpdateKeys failAt now db ks).2.keys) ∧
        (r.key ∉ ks → r ∈ (UpdateKeys failAt now db ks).2.keys)) := by
  constructor
  · intro i hEq hlt
    subst hEq
    simp [UpdateKeys, hlt]
  · intro hok r hr
    have hcommit : (UpdateKeys failAt now db ks).2.keys =
        db.keys.map (fun r =>
          if ks.contains r.key then { r with lastused := now } else r) := by
      rcases failAt with _ | i
      · rfl
      · by_cases hlt : i < ks.length
        · exfalso
          simp [UpdateKeys, hlt] at hok
        · simp [UpdateKeys, hlt]
    rw [hcommit]
    constructor
    · intro hmem
      refine List.mem_map.2 ⟨r, hr, ?_⟩
      rw [if_pos (List.elem_eq_true_of_mem hmem)]
    · intro hnmem
      refine List.mem_map.2 ⟨r, hr, ?_⟩
      have hcf : ¬ ks.contains r.key = true := fun hc =>
        hnmem (List.mem_of_elem_eq_true hc)
      rw [if_neg hcf]

/-- Claim C8 counterexample: it is NOT the case that every public
storage operation that touches the database connection takes the
store-wide lock and schedules its release on all exit paths — the
transcription `storeOps` of the source contains violating entries
(`Exists`, whose lock lines are commented out, `LastModified` and
`Close`). -/
theorem lock_discipline_violated :
    ¬ ∀ op ∈ storeOps, op.touchesDB = true →
        op.locks = true ∧ op.unlocksAllPaths = true := by
  decide

/-- Claim C8 (amended): every public storage operation that touches the
database connection — except `Exists` (lock commented out),
`LastModified` (never locked) and `Close` — acquires the store-wide
exclusive lock on entry and releases it via `defer` on every exit
path. -/
theorem lock_discipline_amended :
    ∀ op ∈ storeOps,
      op.name ≠ "Exists" → op.name ≠ "LastModified" → op.name ≠ "Close" →
      op.touchesDB = true → op.locks = true ∧ op.unlocksAllPaths = true := by
  decide

/-- Claim C3 evidence: the domain "foo" exists, yet
`SetDomain("FOO", "pw")` does not fail with AlreadyExists — the
existence check compares the RAW name case-sensitively while inserts
store lower-cased names — and a second row named "foo" is inserted
(password hashed, public=0, empty options). -/
theorem setDomain_case_check_bug :
    ∃ db', SetDomain bcryptDemo dbFoo "FOO" "pw" = .ok db' ∧
      db'.domains.map (fun d => d.name) = ["foo", "foo"] ∧
      db'.domains.map (fun d => (d.hashedPass, d.ispublic, d.options)) =
        [("h0", 0, ""), (bcryptDemo "pw", 0, "")] :=
  ⟨_, rfl, by decide, by decide⟩

/-- Claim C7 evidence: reading the cached resized image "img1" (views 5)
returns its name, payload and view count, but the view-counter write
goes to the BLOBS table (`UPDATE blobs SET views=? WHERE id=?`, a
copy-paste of `GetBlob`): the cached image's own counter stays 5 while
the unrelated blob of the same id is set to 5+1=6 (not its own 7+1). -/
theorem resizedImage_views_update_bug :
    (GetResizedImage dbImg "img1").1 = .ok ("nm", "payload", 5) ∧
    (GetResizedImage dbImg "img1").2.cachedImages.map (fun x => x.views) = [5] ∧
    (GetResizedImage dbImg "img1").2.blobs.map (fun x => x.views) = [6] :=
  ⟨rfl, rfl, rfl⟩

/-! ### Counterexamples -/

/-- Claim C1 counterexample: the id "aaaaaaaaaa" IS already stored (its
`fs` row holds the history ["v1"]) but its index row is missing — the
torn state the spec itself says a crash between save's independently
committed steps can leave.  `Save`'s reload (`fs.get`, an INNER JOIN
with `fts`) then finds zero rows, so the history is restarted from the
incoming data: after the save the stored snapshots are ["v2"] and the
entry "v1" is lost, refuting "the stored VersionedText after the save
extends the previously stored version sequence and no history entry is
ever lost". -/
theorem save_torn_state_loses_history :
    dbC1.fs.map (fun r => r.history.snapshots) = [["v1"]] ∧
    (∃ db', Save dbC1 fC1 9 = .ok db' ∧
      db'.fs.map (fun r => r.history.snapshots) = [["v2"]]) ∧
    ¬ ∀ db', Save dbC1 fC1 9 = .ok db' →
        ∀ r ∈ db'.fs, ∃ tail, ["v1"] ++ tail = r.history.snapshots :=
  ⟨rfl, ⟨_, rfl, rfl⟩, by
    intro h
    obtain ⟨tail, htail⟩ := h _ rfl ⟨"aaaaaaaaaa", 1, "s", 1, 9,
      ⟨"v2", ["v2"]⟩, 0⟩ (by decide)
    simp at htail⟩

/-- Claim C2 counterexample: save a file into the existing domain
"public" and fetch it back by id — the current text round-trips, but
the returned record's `Domain` field is "" (the id-lookup query never
scans a domain column), not "public" as the claim requires. -/
theorem save_get_domain_field_empty :
    ∃ db', Save dbC2 fC2 5 = .ok db' ∧
      ∃ g, get db' fC2.id "public" = .ok [g] ∧
        g.data = "hi" ∧ ¬ g.domain = "public" :=
  ⟨_, rfl, _, rfl, rfl, by decide⟩

/-- Claim C4 counterexample: the identifier "abcdefghij" matches the
opaque-id shape (10 characters over `UUID`'s alphabet) but is no stored
id; it is however the slug of a stored file.  The code's `get` resolves
it by slug and succeeds, while the claimed shape-based dispatch
(`getSpecShape`) would look it up as an id, find zero rows and fail
with NotFound — so `get` does not behave as the claim states. -/
theorem get_shape_dispatch_refuted :
    matchesIdShape "abcdefghij" = true ∧
    getSpecShape dbC4 "abcdefghij" "public" = .error Err.noFiles ∧
    get dbC4 "abcdefghij" "public" ≠ getSpecShape dbC4 "abcdefghij" "public" := by
  refine ⟨by decide, by decide, by decide⟩

/-- Claim C6 counterexample: with two stored keys "k1" and "k2" and the
statement for the FIRST token failing, the whole call aborts with the
transaction uncommitted: the database is returned unchanged and "k2"'s
last-used timestamp is NOT updated, contradicting the claimed
independence of the per-token updates. -/
theorem updateKeys_failure_blocks_rest :
    (UpdateKeys (some 0) 7 dbC6 ["k1", "k2"]).2 = dbC6 ∧
    ¬ ∀ r ∈ (UpdateKeys (some 0) 7 dbC6 ["k1", "k2"]).2.keys,
        r.key = "k2" → r.lastused = 7 :=
  ⟨rfl, by decide⟩

/-- Claim C9 counterexample: the stored index content is "hello world",
but the file `Find` returns carries "\<b>hello\</b> world" — the
highlighted snippet rendered FROM the index row, not the content stored
in it. -/
theorem find_text_not_index_content :
    (∃ g, Find ftsMatch ftsSnippet dbC9 "hello" "public" = [g] ∧
      g.data = "<b>hello</b> world") ∧
    dbC9.fts.map (fun t => t.data) = ["hello world"] ∧
    ¬ ∀ g ∈ Find ftsMatch ftsSnippet dbC9 "hello" "public",
        ∃ t ∈ dbC9.fts, t.data = g.data :=
  ⟨⟨_, rfl, by decide⟩, rfl, by decide⟩

/-! ### Witnesses: each hypothesis-bearing claim theorem applied at a
concrete input with its hypotheses discharged by evaluation -/

/-- Concrete instance of `save_merges_stored_history`. -/
theorem save_merges_stored_history_witness :
    dbW1.fs.filter (fun x => x.id == fW1.id) = [rW1] ∧
    dbW1.fts.any (fun t => t.id == fW1.id) = true ∧
    (getDomainFromName dbW1 fW1.resolveDomain).1 ≠ 0 ∧
    Save dbW1 { fW1 with history := VersionedText.new "stale" } 9 = Save dbW1 fW1 9 :=
  ⟨by decide, by decide, by decide,
   (save_merges_stored_history dbW1 fW1 9 rW1 (by decide) (by decide) (by decide)).1
     (VersionedText.new "stale")⟩

/-- Concrete instance of `save_get_roundtrip`. -/
theorem save_get_roundtrip_witness :
    (getDomainFromName dbW2 fW2.resolveDomain).1 ≠ 0 ∧
    ∃ db', Save dbW2 fW2 5 = .ok db' ∧
      (∃ g, get db' fW2.id fW2.domain = .ok [g] ∧
        g.id = fW2.id ∧ g.data = fW2.data ∧ g.domain = "") ∧
      (dbW2.fs.any (fun x => x.id == fW2.id) = false →
        ∀ r' ∈ db'.fs, r'.id = fW2.id →
          r'.domainid = (getDomainFromName dbW2 fW2.resolveDomain).1) :=
  ⟨by decide, save_get_roundtrip dbW2 fW2 5 (by decide)⟩

/-- Concrete instance of `get_resolution`: for a stored id the lookup
ignores the domain argument ("nosuchdomain" and "public" agree). -/
theorem get_resolution_witness :
    isID dbW4 "aaaaaaaaaa" = true ∧
    get dbW4 "aaaaaaaaaa" "nosuchdomain" = get dbW4 "aaaaaaaaaa" "public" :=
  ⟨by decide,
   (get_resolution dbW4 "aaaaaaaaaa" "public").1 (by decide) "nosuchdomain"⟩

/-- Concrete instance of `empty_save_excluded`. -/
theorem empty_save_excluded_witness :
    (getDomainFromName dbW5 fW5.resolveDomain).1 ≠ 0 ∧
    fW5.data = "" ∧ ftsMatch "x" "" = false ∧
    ∃ db', Save dbW5 fW5 4 = .ok db' ∧
      (∀ g ∈ GetAll db' "public" false, g.id ≠ fW5.id) ∧
      (∀ g ∈ Find ftsMatch ftsSnippet db' "x" "public", g.id ≠ fW5.id) ∧
      (∃ g, get db' fW5.id fW5.domain = .ok [g] ∧ g.id = fW5.id ∧ g.data = "") :=
  ⟨by decide, rfl, by decide,
   empty_save_excluded dbW5 fW5 4 "public" "public" "x" false ftsMatch ftsSnippet
     (by decide) rfl (by decide)⟩

/-- Concrete instance of `updateKeys_single_transaction`: the statement
for the first key fails, so the call errors and the state is unchanged. -/
theorem updateKeys_single_transaction_witness :
    UpdateKeys (some 0) 7 dbC6 ["k1", "k2"] = (.error Err.execFailed, dbC6) :=
  (updateKeys_single_transaction (some 0) 7 dbC6 ["k1", "k2"]).1 0 rfl (by decide)

/-- Concrete instance of `lock_discipline_amended` at the `Save` entry. -/
theorem lock_discipline_amended_witness :
    (⟨"Save", true, true, true⟩ : OpLock) ∈ storeOps ∧
    ((⟨"Save", true, true, true⟩ : OpLock).locks = true ∧
     (⟨"Save", true, true, true⟩ : OpLock).unlocksAllPaths = true) :=
  ⟨by decide,
   lock_discipline_amended ⟨"Save", true, true, true⟩ (by decide)
     (by decide) (by decide) (by decide) (by decide)⟩

/-- Concrete instance of `text_from_index`: an id with an `fs` row but
no `fts` row is NotFound to `get`. -/
theorem text_from_index_witness :
    isID dbW9 "bbbbbbbbbb" = true ∧ idExists dbW9 "bbbbbbbbbb" = false ∧
    get dbW9 "bbbbbbbbbb" "public" = .error Err.noFiles :=
  ⟨by decide, by decide,
   (text_from_index dbW9 "bbbbbbbbbb" "public" "q" false 0 ftsMatch ftsSnippet).1
     (by decide) (by decide)⟩

/-- Concrete instance of `save_update_frame`. -/
theorem save_update_frame_witness :
    dbW10.fs.any (fun x => x.id == fW10.id) = true ∧
    (getDomainFromName dbW10 fW10.resolveDomain).1 ≠ 0 ∧
    ∃ db', Save dbW10 fW10 9 = .ok db' ∧
      db'.fs = dbW10.fs.map (fun r =>
        if r.id == fW10.id then
          { r with
              slug := fW10.slug
              modified := 9
              history := mergedHistory dbW10 fW10 }
        else r) ∧
      db'.domains = dbW10.domains :=
  ⟨by decide, by decide, save_update_frame dbW10 fW10 9 (by decide) (by decide)⟩

end Scratch
